import Mathlib

/-!
Verification development for the previewcard-yapp GitHub asset-upload client.

Shallow embedding of:
- the rate-limit tracker (`src/lib/gitHubRateLimitService.ts`),
- the credential store (`GitHubAuthService`, final PAT-based version with
  `setToken`, found in the repository as `src/unnamed/part_009`; it is the
  version the final `GitHubLogin` component calls),
- the ENS record merge (`constructUpdatedJson` in `src/components/EnsUpdater.tsx`
  and the merge in `updateOgCardRecord` of `src/lib/ensService.ts`),
- the upload pipeline (`uploadFile`, `uploadOgCardAssets` in
  `src/lib/githubService.ts`).

Network effects (Octokit REST calls) are abstracted into explicit environment
parameters; each function additionally returns the trace of the remote write
calls it performed, so that "exactly one write per asset" and
"no further files are written after a failure" are statable.
-/

set_option autoImplicit false

namespace PreviewCard

/-! ## Rate limit tracker (`src/lib/gitHubRateLimitService.ts`)

A `RateLimit` mirrors the `RateLimit` interface: `{limit, remaining, reset,
used}` (the optional `resource` tag, which merely repeats the cache key, is
not modelled). The cache `rateLimits: Record<string, RateLimit>` is modelled
as an association list. Time is passed explicitly: `nowMs` is `Date.now()`
in milliseconds; `hasEnoughRemaining` converts it to seconds with
`Math.floor(Date.now() / 1000)`, i.e. `nowMs / 1000` on `Nat`. -/

structure RateLimit where
  limit : Nat
  remaining : Nat
  reset : Nat
  used : Nat
  deriving Repr, DecidableEq

abbrev RateLimits := List (String × RateLimit)

/-- Lookup `this.rateLimits[resource]` in the association-list model of the
`Record<string, RateLimit>` cache. -/
def lookupResource : RateLimits → String → Option RateLimit
  | [], _ => none
  | (k, v) :: rest, resource =>
      if k = resource then some v else lookupResource rest resource

/-- Function `hasEnoughRemaining(resource, minimumRequired)` from
`gitHubRateLimitService.ts` lines 87-101: `true` when the cache has no entry
for the resource; `true` when `now > reset` (the window has reset); otherwise
`remaining >= minimumRequired`. -/
def hasEnoughRemaining (rls : RateLimits) (nowMs : Nat)
    (resource : String) (minimumRequired : Nat) : Bool :=
  match lookupResource rls resource with
  | none => true
  | some r =>
      let nowSec := nowMs / 1000
      if r.reset < nowSec then true
      else decide (minimumRequired ≤ r.remaining)

structure RateLimitInfo where
  remaining : Nat
  total : Nat
  used : Nat
  resetTime : String
  isLow : Bool
  deriving Repr, DecidableEq

/-- Function `getRateLimitInfo(resource)`: the defaulted display record when no data is
cached, otherwise the cached counters. `toLocaleTimeString` rendering of the
reset instant is abstracted to the decimal rendering of the epoch seconds. -/
def getRateLimitInfo (rls : RateLimits) (resource : String) : RateLimitInfo :=
  match lookupResource rls resource with
  | none => ⟨5000, 5000, 0, "Unknown", false⟩
  | some r => ⟨r.remaining, r.limit, r.used, toString r.reset, decide (r.remaining < 100)⟩

/-- Function `checkRateLimit(resource, minimumRequired)`: throws the
"rate limit exceeded" error exactly when `hasEnoughRemaining` is false.
A thrown error is modelled as `Except.error` carrying the message. -/
def checkRateLimit (rls : RateLimits) (nowMs : Nat)
    (resource : String) (minimumRequired : Nat) : Except String Unit :=
  if hasEnoughRemaining rls nowMs resource minimumRequired then Except.ok ()
  else
    let info := getRateLimitInfo rls resource
    Except.error ("GitHub API rate limit exceeded. " ++ toString info.remaining
      ++ " remaining. Resets at " ++ info.resetTime ++ ".")

/-- The five resource categories returned by `octokit.rest.rateLimit.get()`
that `updateRateLimits` stores. -/
structure RateLimitResources where
  core : RateLimit
  search : RateLimit
  graphql : RateLimit
  integration_manifest : RateLimit
  code_scanning_upload : RateLimit
  deriving Repr, DecidableEq

def limitsOfResources (res : RateLimitResources) : RateLimits :=
  [("core", res.core), ("search", res.search), ("graphql", res.graphql),
   ("integration_manifest", res.integration_manifest),
   ("code_scanning_upload", res.code_scanning_upload)]

/-- The tracker's mutable state: the cached snapshots and `lastUpdated`
(milliseconds). The localStorage copy mirrors this state verbatim and is not
modelled separately. -/
structure RateLimitState where
  rateLimits : RateLimits
  lastUpdated : Nat
  deriving Repr, DecidableEq

/-- Constant `updateInterval = 5 * 60 * 1000` milliseconds. -/
def updateIntervalMs : Nat := 5 * 60 * 1000

/-- Outcome of the (abstracted) `octokit.rest.rateLimit.get()` network call. -/
inductive FetchOutcome
  | success (res : RateLimitResources)
  | failure
  deriving Repr, DecidableEq

/-- Result of a call to `updateRateLimits`: the returned boolean, the state
after the call, and how many network calls were made. -/
structure UpdateOutcome where
  returned : Bool
  state : RateLimitState
  networkCalls : Nat
  deriving Repr, DecidableEq

/-- Function `updateRateLimits(octokit)` from `gitHubRateLimitService.ts` lines 45-79:
`false` immediately when no client; a no-op returning `true` when less than
the update interval has elapsed; otherwise one network call which on success
replaces the cache and stamps `lastUpdated := now`, and on failure returns
`false` leaving the state alone. (On `Nat`, `nowMs - lastUpdated` truncates
at 0 for a future `lastUpdated`, matching the JS comparison where a negative
difference is below the interval.) -/
def updateRateLimits (hasOctokit : Bool) (st : RateLimitState) (nowMs : Nat)
    (fetch : FetchOutcome) : UpdateOutcome :=
  if !hasOctokit then ⟨false, st, 0⟩
  else if nowMs - st.lastUpdated < updateIntervalMs then ⟨true, st, 0⟩
  else
    match fetch with
    | .success res => ⟨true, ⟨limitsOfResources res, nowMs⟩, 1⟩
    | .failure => ⟨false, st, 1⟩

/-- C2: with a cached snapshot for the category, the pre-flight check throws
exactly when the cached `remaining` is below the required calls and the reset
time has not yet passed (`now ≤ reset` in epoch seconds). -/
theorem checkRateLimit_throws_iff (rls : RateLimits) (nowMs : Nat)
    (resource : String) (minimumRequired : Nat) (r : RateLimit)
    (hcache : lookupResource rls resource = some r) :
    (∃ msg, checkRateLimit rls nowMs resource minimumRequired = Except.error msg) ↔
      (r.remaining < minimumRequired ∧ nowMs / 1000 ≤ r.reset) := by
  by_cases h1 : r.reset < nowMs / 1000 <;>
    by_cases h2 : minimumRequired ≤ r.remaining <;>
      simp [checkRateLimit, hasEnoughRemaining, hcache, h1, h2] <;>
        omega

/-- Witness for C2 at a concrete cache: remaining 3 < required 6 and
reset 100 still in the future at time 0. -/
theorem checkRateLimit_throws_iff_witness :
    (∃ msg, checkRateLimit [("core", ⟨5000, 3, 100, 10⟩)] 0 "core" 6 = Except.error msg) ↔
      ((3 : Nat) < 6 ∧ 0 / 1000 ≤ (100 : Nat)) :=
  checkRateLimit_throws_iff [("core", ⟨5000, 3, 100, 10⟩)] 0 "core" 6 ⟨5000, 3, 100, 10⟩ rfl

/-- C9: a refresh attempted less than the 5-minute interval after the last
successful refresh is a no-op success: it returns `true`, performs no network
call, and leaves the cached snapshots and `lastUpdated` unchanged. -/
theorem updateRateLimits_noop_within_interval (st : RateLimitState) (nowMs : Nat)
    (fetch : FetchOutcome) (hfresh : nowMs - st.lastUpdated < updateIntervalMs) :
    updateRateLimits true st nowMs fetch = ⟨true, st, 0⟩ := by
  unfold updateRateLimits
  simp [hfresh]

/-- Witness for C9 at a concrete state and time within the interval. -/
theorem updateRateLimits_noop_within_interval_witness :
    updateRateLimits true ⟨[("core", ⟨5000, 4999, 60, 1⟩)], 1000⟩ 2000 FetchOutcome.failure
      = ⟨true, ⟨[("core", ⟨5000, 4999, 60, 1⟩)], 1000⟩, 0⟩ :=
  updateRateLimits_noop_within_interval ⟨[("core", ⟨5000, 4999, 60, 1⟩)], 1000⟩ 2000
    FetchOutcome.failure (by decide)

/-- C10: with no cached snapshot for a category, `hasEnoughRemaining` returns
`true` and `checkRateLimit` does not throw, whatever the required count. -/
theorem checkRateLimit_ok_without_data (rls : RateLimits) (nowMs : Nat)
    (resource : String) (minimumRequired : Nat)
    (hnone : lookupResource rls resource = none) :
    hasEnoughRemaining rls nowMs resource minimumRequired = true ∧
      checkRateLimit rls nowMs resource minimumRequired = Except.ok () := by
  have h : hasEnoughRemaining rls nowMs resource minimumRequired = true := by
    unfold hasEnoughRemaining
    rw [hnone]
  exact ⟨h, by unfold checkRateLimit; rw [h]; simp⟩

/-- Witness for C10 on the empty cache. -/
theorem checkRateLimit_ok_without_data_witness :
    hasEnoughRemaining [] 987654 "core" 1000000 = true ∧
      checkRateLimit [] 987654 "core" 1000000 = Except.ok () :=
  checkRateLimit_ok_without_data [] 987654 "core" 1000000 rfl

/-! ## Credential store (`GitHubAuthService`, final PAT design, `src/unnamed/part_009`)

The store's mutable fields are `token`, `octokit` and `user`; the Octokit
client object carries no state the model needs beyond presence, so it is a
`Bool`. The `localStorage` copy of the token mirrors the `token` field
verbatim and is not modelled separately. The outcome of the single
authenticated identity call `octokit.rest.users.getAuthenticated()` is an
explicit `Except` parameter. Error-message strings keep the source wording
with the single quotation marks around `repo` omitted. -/

structure GitHubUser where
  login : String
  avatar_url : String
  name : Option String
  html_url : String
  deriving Repr, DecidableEq

structure AuthState where
  token : Option String
  octokit : Bool
  user : Option GitHubUser
  deriving Repr, DecidableEq

/-- Function `isAuthenticated()`: `!!this.token && !!this.user`. -/
def isAuthenticated (st : AuthState) : Bool :=
  st.token.isSome && st.user.isSome

/-- Function `initOctokit()`: instantiate the client when a token is present, clear it
otherwise. -/
def initOctokit (st : AuthState) : AuthState :=
  { st with octokit := st.token.isSome }

/-- Function `signOut()`: clears the token (including the persisted copy), the client
and the cached user. -/
def signOut (_ : AuthState) : AuthState :=
  ⟨none, false, none⟩

/-- Function `fetchUserInfo()`: throws when no client is initialized; on API success
caches the user and returns it; on API failure resets `user` to `null` and
re-throws the underlying error. -/
def fetchUserInfo (st : AuthState) (apiResult : Except String GitHubUser) :
    AuthState × Except String GitHubUser :=
  if st.octokit then
    match apiResult with
    | .ok u => ({ st with user := some u }, .ok u)
    | .error e => ({ st with user := none }, .error e)
  else (st, .error "Authentication required (Octokit not initialized).")

def invalidTokenMessage : String :=
  "Invalid token or insufficient scope. Please ensure the token has repo scope."

/-- JavaScript `String.prototype.trim`: strip leading and trailing
whitespace. -/
def trimString (s : String) : String :=
  ⟨((s.data.dropWhile Char.isWhitespace).reverse.dropWhile Char.isWhitespace).reverse⟩

/-- Function `setToken(newToken)` from `part_009` lines 66-86: reject a blank token;
otherwise persist the trimmed token, initialize the client, and validate by
one identity call; on validation failure `signOut()` and throw the
invalid-token error. -/
def setToken (st : AuthState) (newToken : String)
    (apiResult : Except String GitHubUser) : AuthState × Except String GitHubUser :=
  if (trimString newToken).length = 0 then
    (st, .error "Invalid token provided.")
  else
    let st1 := initOctokit { st with token := some (trimString newToken) }
    match fetchUserInfo st1 apiResult with
    | (st2, .ok u) => (st2, .ok u)
    | (st2, .error _) => (signOut st2, .error invalidTokenMessage)

/-- Reachable states of the credential store: the constructor either finds no
stored token or restores one and kicks off an identity fetch; afterwards the
state evolves only through `setToken`, `fetchUserInfo` and `signOut`. -/
inductive Reachable : AuthState → Prop
  | initNoToken : Reachable ⟨none, false, none⟩
  | initToken (t : String) : Reachable ⟨some t, true, none⟩
  | stepFetch (st : AuthState) (r : Except String GitHubUser) (h : Reachable st) :
      Reachable (fetchUserInfo st r).1
  | stepSetToken (st : AuthState) (tok : String) (r : Except String GitHubUser)
      (h : Reachable st) : Reachable (setToken st tok r).1
  | stepSignOut (st : AuthState) (h : Reachable st) : Reachable (signOut st)

/-- C7: in every reachable state, `isAuthenticated()` is true iff both a
persisted token and a fetched identity exist; a stored token alone (no user)
never makes it true. -/
theorem isAuthenticated_iff_token_and_user (st : AuthState) (h : Reachable st) :
    (isAuthenticated st = true ↔ st.token.isSome ∧ st.user.isSome) ∧
      (st.user = none → isAuthenticated st = false) := by
  constructor
  · simp [isAuthenticated]
  · intro hu
    simp [isAuthenticated, hu]

/-- Witness for C7 at the reachable state holding a stored token whose
identity fetch has not succeeded: `isAuthenticated` is false there. -/
theorem isAuthenticated_iff_token_and_user_witness :
    ((isAuthenticated ⟨some "ghp_x", true, none⟩ = true ↔
        (some "ghp_x").isSome ∧ (none : Option GitHubUser).isSome) ∧
      ((none : Option GitHubUser) = none →
        isAuthenticated ⟨some "ghp_x", true, none⟩ = false)) :=
  isAuthenticated_iff_token_and_user ⟨some "ghp_x", true, none⟩ (Reachable.initToken "ghp_x")

/-- C6: for a non-blank token whose identity call fails, `setToken` rejects
with the invalid-token error, the persisted token and cached identity are
cleared, and `isAuthenticated()` is false afterward. -/
theorem setToken_invalid_clears_state (st : AuthState) (newToken : String) (e : String)
    (hne : (trimString newToken).length ≠ 0) :
    setToken st newToken (Except.error e)
        = (⟨none, false, none⟩, Except.error invalidTokenMessage) ∧
      isAuthenticated (setToken st newToken (Except.error e)).1 = false := by
  have heq : setToken st newToken (Except.error e)
      = (⟨none, false, none⟩, Except.error invalidTokenMessage) := by
    simp [setToken, hne, initOctokit, fetchUserInfo, signOut]
  exact ⟨heq, by rw [heq]; rfl⟩

/-- Witness for C6 at the concrete invalid token `ghp_bad`. -/
theorem setToken_invalid_clears_state_witness :
    (setToken ⟨none, false, none⟩ "ghp_bad" (Except.error "Bad credentials")
        = (⟨none, false, none⟩, Except.error invalidTokenMessage) ∧
      isAuthenticated (setToken ⟨none, false, none⟩ "ghp_bad"
          (Except.error "Bad credentials")).1 = false) :=
  setToken_invalid_clears_state ⟨none, false, none⟩ "ghp_bad" "Bad credentials" (by decide)

/-! ## ENS record merge (`constructUpdatedJson`, `EnsUpdater.tsx` lines 371-391;
`updateOgCardRecord`, `ensService.ts` lines 174-211)

JSON objects are association lists of string keys to `Json` values;
JavaScript property assignment preserves the position of an existing key and
appends a fresh key at the end, which is what `setKey` does. The caller of
the merge holds the existing record as a string and `JSON.parse`s it inside
a `try`; the parsed outcome is modelled as `Option (List (String × Json))`
(`none` = record absent or invalid JSON, in which case the code starts from
the empty object). `JSON.stringify` of the merged object is not modelled:
the merged object itself is returned. -/

inductive Json where
  | str (s : String)
  | num (n : Int)
  | bool (b : Bool)
  | null
  | arr (elems : List Json)
  | obj (fields : List (String × Json))
  deriving Repr

/-- Property lookup `o[k]` on an object's field list. -/
def getKey : List (String × Json) → String → Option Json
  | [], _ => none
  | (k, v) :: rest, key => if k = key then some v else getKey rest key

/-- Property assignment `o[k] = v`: update in place when the key exists,
append at the end otherwise. -/
def setKey : List (String × Json) → String → Json → List (String × Json)
  | [], key, value => [(key, value)]
  | (k, v) :: rest, key, value =>
      if k = key then (key, value) :: rest else (k, v) :: setKey rest key value

/-- The field list produced by `constructUpdatedJson`: start from the parsed
existing record (or `{}`), then
`updatedData.og = { ...updatedData.og, baseUrl: previewUrl }`. The spread of
a non-object `og` value contributes no fields (as in JS for
undefined/null/number/boolean). -/
def constructUpdatedFields (existing : Option (List (String × Json)))
    (previewUrl : String) : List (String × Json) :=
  let updatedData := existing.getD []
  let ogSpread := match getKey updatedData "og" with
    | some (Json.obj ogFields) => ogFields
    | _ => []
  setKey updatedData "og" (Json.obj (setKey ogSpread "baseUrl" (Json.str previewUrl)))

/-- Function `constructUpdatedJson()` from `EnsUpdater.tsx`, as the merged document. -/
def constructUpdatedJson (existing : Option (List (String × Json)))
    (previewUrl : String) : Json :=
  Json.obj (constructUpdatedFields existing previewUrl)

/-- The merge `{ ...existingRecord, og: record.og }` inside
`updateOgCardRecord` of `ensService.ts`: the whole `og` value is replaced. -/
def updateOgCardRecordMerge (existing : Option (List (String × Json)))
    (ogValue : Json) : Json :=
  Json.obj (setKey (existing.getD []) "og" ogValue)

theorem getKey_setKey_same (l : List (String × Json)) (k : String) (v : Json) :
    getKey (setKey l k v) k = some v := by
  induction l with
  | nil => simp [setKey, getKey]
  | cons hd tl ih =>
      obtain ⟨k', v'⟩ := hd
      by_cases h : k' = k
      · simp [setKey, getKey, h]
      · simp [setKey, getKey, h, ih]

theorem getKey_setKey_ne (l : List (String × Json)) (k k' : String) (v : Json)
    (h : k' ≠ k) : getKey (setKey l k v) k' = getKey l k' := by
  have hkk : ¬ k = k' := fun hh => h hh.symm
  induction l with
  | nil => simp [setKey, getKey, hkk]
  | cons hd tl ih =>
      obtain ⟨k₀, v₀⟩ := hd
      by_cases h0 : k₀ = k
      · simp [setKey, getKey, h0, hkk]
      · simp [setKey, getKey, h0, ih]

/-- The field list of an object document (non-objects have none). -/
def objFields : Json → List (String × Json)
  | Json.obj fields => fields
  | _ => []

/-- C5: the merge before writing the ENS record preserves every unrelated
top-level key verbatim and adds or updates `og.baseUrl`; an absent or
invalid-JSON existing record is treated as the empty object; the spec's
concrete example evaluates as stated. The same top-level preservation holds
for the merge inside `updateOgCardRecord`. -/
theorem constructUpdatedJson_merge (fs : List (String × Json)) (previewUrl : String) :
    (∀ k, k ≠ "og" → getKey (constructUpdatedFields (some fs) previewUrl) k = getKey fs k) ∧
    (∃ ogFields,
        getKey (constructUpdatedFields (some fs) previewUrl) "og" = some (Json.obj ogFields) ∧
        getKey ogFields "baseUrl" = some (Json.str previewUrl)) ∧
    constructUpdatedJson none previewUrl
      = Json.obj [("og", Json.obj [("baseUrl", Json.str previewUrl)])] ∧
    constructUpdatedJson
        (some [("tokenSymbols", Json.arr [Json.str "USDT"]), ("extra", Json.str "x")])
        "https://cdn/x"
      = Json.obj [("tokenSymbols", Json.arr [Json.str "USDT"]), ("extra", Json.str "x"),
          ("og", Json.obj [("baseUrl", Json.str "https://cdn/x")])] ∧
    (∀ ogValue : Json, ∀ k, k ≠ "og" →
        getKey (objFields (updateOgCardRecordMerge (some fs) ogValue)) k = getKey fs k) ∧
    (∀ ogValue : Json,
        getKey (objFields (updateOgCardRecordMerge (some fs) ogValue)) "og" = some ogValue) := by
  refine ⟨?_, ?_, ?_, ?_, ?_, ?_⟩
  · intro k hk
    exact getKey_setKey_ne _ _ _ _ hk
  · exact ⟨_, getKey_setKey_same _ _ _, getKey_setKey_same _ _ _⟩
  · rfl
  · simp [constructUpdatedJson, constructUpdatedFields, getKey, setKey]
  · intro ogValue k hk
    exact getKey_setKey_ne _ _ _ _ hk
  · intro ogValue
    exact getKey_setKey_same _ _ _

/-- Witness for C5: the unrelated key `extra` of the example record is looked
up unchanged through the merge. -/
theorem constructUpdatedJson_merge_witness :
    getKey (constructUpdatedFields
        (some [("tokenSymbols", Json.arr [Json.str "USDT"]), ("extra", Json.str "x")])
        "https://cdn/x") "extra"
      = getKey [("tokenSymbols", Json.arr [Json.str "USDT"]), ("extra", Json.str "x")] "extra" :=
  (constructUpdatedJson_merge
      [("tokenSymbols", Json.arr [Json.str "USDT"]), ("extra", Json.str "x")]
      "https://cdn/x").1 "extra" (by decide)

/-! ## Asset upload (`src/lib/githubService.ts`)

`FolderPath` and `ImageFile` are from `src/lib/types.ts` (the `file: File |
null` slot of `ImageFile` is never read by the upload path and is omitted;
the slot name is kept as a plain string). The two Octokit calls made by
`uploadFile` are abstracted into an `UploadEnv`:
`getContent path = some sha` models `repos.getContent` answering with a
single file carrying that `sha`, while `none` models both the throwing case
(file absent) and the directory-listing (array) case, in each of which the
code proceeds without a `sha`; `writeError path = some msg` models
`repos.createOrUpdateFileContents` throwing with message `msg`, `none` a
successful write. Each function also returns the list of
`createOrUpdateFileContents` calls it attempted, and the response payload of
a successful write is abstracted as the request record itself.

The `try`/`catch` around each `checkRateLimit` call re-throws exactly the
errors whose message includes "rate limit exceeded"; since `checkRateLimit`
throws only such errors, the guard is modelled as plain propagation. The
fire-and-forget `updateRateLimits(...).catch(...)` refreshes after writes do
not influence any returned value; the cached snapshot consulted by the
checks is modelled as constant for the duration of one batch. -/

structure FolderPath where
  username : String
  repo : String
  folder : String
  deriving Repr, DecidableEq

structure ImageFile where
  name : String
  preview : Option String
  deriving Repr, DecidableEq

structure WriteCall where
  owner : String
  repo : String
  path : String
  content : String
  message : String
  sha : Option String
  deriving Repr, DecidableEq

structure UploadEnv where
  getContent : String → Option String
  writeError : String → Option String

/-- The spread `...(sha ? { sha } : {})`: the `sha` parameter is included in
the write exactly when the variable is defined and truthy (a JS empty string
is falsy). -/
def shaArg : Option String → Option String
  | some s => if s = "" then none else some s
  | none => none

/-- Function `uploadFile(params)` from `githubService.ts` lines 116-177: require a
client, run the pre-flight budget check for 5 core calls, read the current
sha of the target path, then create-or-update the file. -/
def uploadFile (hasOctokit : Bool) (rls : RateLimits) (nowMs : Nat) (env : UploadEnv)
    (owner repo path content : String) (message : Option String) :
    Except String WriteCall × List WriteCall :=
  if !hasOctokit then (.error "GitHub authentication required", [])
  else
    match checkRateLimit rls nowMs "core" 5 with
    | .error e => (.error e, [])
    | .ok () =>
        let call : WriteCall :=
          ⟨owner, repo, path, content, message.getD ("Upload " ++ path),
            shaArg (env.getContent path)⟩
        match env.writeError path with
        | none => (.ok call, [call])
        | some e => (.error e, [call])

/-- The target path `og/<folder>/<name>.png` of one asset. -/
def ogPath (folderPath : FolderPath) (f : ImageFile) : String :=
  "og/" ++ folderPath.folder ++ "/" ++ f.name ++ ".png"

/-- Expression `file.preview.split(',')[1]`: the base64 payload of a data URL. A data
URL without a comma yields JS `undefined`, modelled as the empty string. -/
def dataUrlBase64 (dataUrl : String) : String :=
  (dataUrl.splitOn ",").getD 1 ""

/-- The CDN URL computed by `uploadOgCardAssets`:
`https://cdn.jsdelivr.net/gh/<username>/<repo>/og/<folder>`. -/
def baseUrlOf (folderPath : FolderPath) : String :=
  "https://cdn.jsdelivr.net/gh/" ++ folderPath.username ++ "/" ++ folderPath.repo
    ++ "/og/" ++ folderPath.folder

/-- The write request `uploadOgCardAssets` issues for one populated asset. -/
def plannedCall (env : UploadEnv) (folderPath : FolderPath) (f : ImageFile) : WriteCall :=
  { owner := folderPath.username
    repo := folderPath.repo
    path := ogPath folderPath f
    content := dataUrlBase64 (f.preview.getD "")
    message := "Upload " ++ f.name ++ ".png for OG card preview"
    sha := shaArg (env.getContent (ogPath folderPath f)) }

/-- The `for (const file of files)` loop of `uploadOgCardAssets` lines
201-224: skip a file without preview content; otherwise upload it through
`uploadFile` and push the response onto `results`; any thrown error aborts
the loop and propagates. The first component is the `results` accumulator
(or the propagated error), the second the trace of attempted writes. -/
def uploadLoop (rls : RateLimits) (nowMs : Nat) (env : UploadEnv)
    (folderPath : FolderPath) :
    List ImageFile → Except String (List WriteCall) × List WriteCall
  | [] => (.ok [], [])
  | f :: rest =>
      match f.preview with
      | none => uploadLoop rls nowMs env folderPath rest
      | some preview =>
          match uploadFile true rls nowMs env folderPath.username folderPath.repo
              (ogPath folderPath f) (dataUrlBase64 preview)
              (some ("Upload " ++ f.name ++ ".png for OG card preview")) with
          | (.error e, trace) => (.error e, trace)
          | (.ok call, trace) =>
              match uploadLoop rls nowMs env folderPath rest with
              | (.error e, trace2) => (.error e, trace ++ trace2)
              | (.ok calls, trace2) => (.ok (call :: calls), trace ++ trace2)

structure UploadResult where
  success : Bool
  baseUrl : String
  results : List WriteCall
  deriving Repr, DecidableEq

/-- Function `uploadOgCardAssets(folderPath, files)` from `githubService.ts` lines
179-236: require a client, budget-check `2 × (populated assets)` core calls,
run the upload loop, and return `{success: true, baseUrl, results}`. -/
def uploadOgCardAssets (hasOctokit : Bool) (rls : RateLimits) (nowMs : Nat)
    (env : UploadEnv) (folderPath : FolderPath) (files : List ImageFile) :
    Except String UploadResult × List WriteCall :=
  if !hasOctokit then (.error "GitHub authentication required", [])
  else
    let requiredCalls := (files.filter (fun f => f.preview.isSome)).length * 2
    match checkRateLimit rls nowMs "core" requiredCalls with
    | .error e => (.error e, [])
    | .ok () =>
        match uploadLoop rls nowMs env folderPath files with
        | (.error e, trace) => (.error e, trace)
        | (.ok results, trace) => (.ok ⟨true, baseUrlOf folderPath, results⟩, trace)

/-! ### Helper lemmas about the upload pipeline -/

theorem hasEnoughRemaining_mono (rls : RateLimits) (nowMs : Nat) (resource : String)
    (m n : Nat) (hmn : m ≤ n) (h : hasEnoughRemaining rls nowMs resource n = true) :
    hasEnoughRemaining rls nowMs resource m = true := by
  unfold hasEnoughRemaining at h ⊢
  cases hc : lookupResource rls resource with
  | none => simp
  | some r =>
      rw [hc] at h
      by_cases h1 : r.reset < nowMs / 1000
      · simp [h1]
      · simp [h1] at h ⊢
        exact le_trans hmn h

theorem uploadFile_ok_spec (rls : RateLimits) (nowMs : Nat) (env : UploadEnv)
    (owner repo path content : String) (message : Option String)
    (hrate : hasEnoughRemaining rls nowMs "core" 5 = true)
    (hok : env.writeError path = none) :
    uploadFile true rls nowMs env owner repo path content message
      = (.ok ⟨owner, repo, path, content, message.getD ("Upload " ++ path),
            shaArg (env.getContent path)⟩,
         [⟨owner, repo, path, content, message.getD ("Upload " ++ path),
            shaArg (env.getContent path)⟩]) := by
  simp [uploadFile, checkRateLimit, hrate, hok]

theorem uploadFile_error_spec (rls : RateLimits) (nowMs : Nat) (env : UploadEnv)
    (owner repo path content : String) (message : Option String) (msg : String)
    (hrate : hasEnoughRemaining rls nowMs "core" 5 = true)
    (hfail : env.writeError path = some msg) :
    uploadFile true rls nowMs env owner repo path content message
      = (.error msg,
         [⟨owner, repo, path, content, message.getD ("Upload " ++ path),
            shaArg (env.getContent path)⟩]) := by
  simp [uploadFile, checkRateLimit, hrate, hfail]

theorem uploadLoop_ok_spec (rls : RateLimits) (nowMs : Nat) (env : UploadEnv)
    (folderPath : FolderPath) (files : List ImageFile)
    (hrate : hasEnoughRemaining rls nowMs "core" 5 = true)
    (hw : ∀ f ∈ files, f.preview.isSome → env.writeError (ogPath folderPath f) = none) :
    uploadLoop rls nowMs env folderPath files
      = (.ok ((files.filter fun f => f.preview.isSome).map (plannedCall env folderPath)),
         (files.filter fun f => f.preview.isSome).map (plannedCall env folderPath)) := by
  induction files with
  | nil => rfl
  | cons f rest ih =>
      have hrest : ∀ g ∈ rest, g.preview.isSome →
          env.writeError (ogPath folderPath g) = none :=
        fun g hg => hw g (List.mem_cons_of_mem _ hg)
      cases hp : f.preview with
      | none => simpa [uploadLoop, hp] using ih hrest
      | some p =>
          have hwf : env.writeError (ogPath folderPath f) = none :=
            hw f (List.mem_cons_self _ _) (by simp [hp])
          have hstep := uploadFile_ok_spec rls nowMs env folderPath.username folderPath.repo
            (ogPath folderPath f) (dataUrlBase64 p)
            (some ("Upload " ++ f.name ++ ".png for OG card preview")) hrate hwf
          simp [uploadLoop, hp, hstep, ih hrest, plannedCall]

theorem uploadLoop_ok_implies_writes (rls : RateLimits) (nowMs : Nat) (env : UploadEnv)
    (folderPath : FolderPath) (files : List ImageFile)
    (results trace : List WriteCall)
    (hok : uploadLoop rls nowMs env folderPath files = (.ok results, trace)) :
    ∀ f ∈ files, f.preview.isSome → env.writeError (ogPath folderPath f) = none := by
  induction files generalizing results trace with
  | nil =>
      intro f hf
      cases hf
  | cons g rest ih =>
      intro f hf hpop
      rcases List.mem_cons.mp hf with hfg | hfr
      · subst hfg
        cases hp : f.preview with
        | none => simp [hp] at hpop
        | some p =>
            simp only [uploadLoop, hp] at hok
            cases hcr : checkRateLimit rls nowMs "core" 5 with
            | error e => simp [uploadFile, hcr] at hok
            | ok u =>
                cases u
                cases hw : env.writeError (ogPath folderPath f) with
                | none => rfl
                | some msg => simp [uploadFile, hcr, hw] at hok
      · cases hp : g.preview with
        | none =>
            simp only [uploadLoop, hp] at hok
            exact ih results trace hok f hfr hpop
        | some p =>
            simp only [uploadLoop, hp] at hok
            cases hcr : checkRateLimit rls nowMs "core" 5 with
            | error e => simp [uploadFile, hcr] at hok
            | ok u =>
                cases u
                cases hw : env.writeError (ogPath folderPath g) with
                | some msg => simp [uploadFile, hcr, hw] at hok
                | none =>
                    simp only [uploadFile, hcr, hw] at hok
                    cases hrec : uploadLoop rls nowMs env folderPath rest with
                    | mk r t =>
                        cases r with
                        | error e => simp [hrec] at hok
                        | ok cs => exact ih cs t hrec f hfr hpop

theorem uploadLoop_abort_spec (rls : RateLimits) (nowMs : Nat) (env : UploadEnv)
    (folderPath : FolderPath) (pre post : List ImageFile)
    (f : ImageFile) (p msg : String)
    (hrate : hasEnoughRemaining rls nowMs "core" 5 = true)
    (hpre : ∀ g ∈ pre, g.preview.isSome → env.writeError (ogPath folderPath g) = none)
    (hp : f.preview = some p)
    (hfail : env.writeError (ogPath folderPath f) = some msg) :
    uploadLoop rls nowMs env folderPath (pre ++ f :: post)
      = (.error msg,
         ((pre.filter fun g => g.preview.isSome).map (plannedCall env folderPath))
           ++ [plannedCall env folderPath f]) := by
  induction pre with
  | nil =>
      have hstep := uploadFile_error_spec rls nowMs env folderPath.username folderPath.repo
        (ogPath folderPath f) (dataUrlBase64 p)
        (some ("Upload " ++ f.name ++ ".png for OG card preview")) msg hrate hfail
      simp [uploadLoop, hp, hstep, plannedCall]
  | cons g pre ih =>
      have hrest : ∀ g' ∈ pre, g'.preview.isSome →
          env.writeError (ogPath folderPath g') = none :=
        fun g' hg' => hpre g' (List.mem_cons_of_mem _ hg')
      cases hgp : g.preview with
      | none => simpa [uploadLoop, hgp] using ih hrest
      | some q =>
          have hwg : env.writeError (ogPath folderPath g) = none :=
            hpre g (List.mem_cons_self _ _) (by simp [hgp])
          have hstep := uploadFile_ok_spec rls nowMs env folderPath.username folderPath.repo
            (ogPath folderPath g) (dataUrlBase64 q)
            (some ("Upload " ++ g.name ++ ".png for OG card preview")) hrate hwg
          simp [uploadLoop, hgp, hstep, ih hrest, plannedCall]

theorem uploadOgCardAssets_error_spec (rls : RateLimits) (nowMs : Nat) (env : UploadEnv)
    (folderPath : FolderPath) (files : List ImageFile) (e : String) (trace : List WriteCall)
    (hbudget : hasEnoughRemaining rls nowMs "core"
        ((files.filter fun f => f.preview.isSome).length * 2) = true)
    (hloop : uploadLoop rls nowMs env folderPath files = (.error e, trace)) :
    uploadOgCardAssets true rls nowMs env folderPath files = (.error e, trace) := by
  simp [uploadOgCardAssets, checkRateLimit, hbudget, hloop]

theorem uploadOgCardAssets_ok_spec (rls : RateLimits) (nowMs : Nat) (env : UploadEnv)
    (folderPath : FolderPath) (files : List ImageFile)
    (hbudget : hasEnoughRemaining rls nowMs "core"
        ((files.filter fun f => f.preview.isSome).length * 2) = true)
    (hrate : hasEnoughRemaining rls nowMs "core" 5 = true)
    (hw : ∀ f ∈ files, f.preview.isSome → env.writeError (ogPath folderPath f) = none) :
    uploadOgCardAssets true rls nowMs env folderPath files
      = (.ok ⟨true, baseUrlOf folderPath,
            (files.filter fun f => f.preview.isSome).map (plannedCall env folderPath)⟩,
         (files.filter fun f => f.preview.isSome).map (plannedCall env folderPath)) := by
  simp [uploadOgCardAssets, checkRateLimit, hbudget,
    uploadLoop_ok_spec rls nowMs env folderPath files hrate hw]

/-! ### Claim theorems about the upload pipeline -/

/-- C1: for every folder path and all three image assets populated,
`uploadOgCardAssets` succeeds with `baseUrl =
https://cdn.jsdelivr.net/gh/{username}/{repo}/og/{folder}` and performs
exactly one `createOrUpdateFileContents` call per asset, at
`og/{folder}/{name}.png`. -/
theorem uploadOgCardAssets_three_assets (rls : RateLimits) (nowMs : Nat) (env : UploadEnv)
    (folderPath : FolderPath) (p1 p2 p3 : String)
    (hbudget : hasEnoughRemaining rls nowMs "core" 6 = true)
    (hw : ∀ f ∈ ([⟨"inner", some p1⟩, ⟨"outer", some p2⟩,
        ⟨"overlay", some p3⟩] : List ImageFile),
        env.writeError (ogPath folderPath f) = none) :
    uploadOgCardAssets true rls nowMs env folderPath
        [⟨"inner", some p1⟩, ⟨"outer", some p2⟩, ⟨"overlay", some p3⟩]
      = (.ok ⟨true,
            "https://cdn.jsdelivr.net/gh/" ++ folderPath.username ++ "/" ++ folderPath.repo
              ++ "/og/" ++ folderPath.folder,
            [plannedCall env folderPath ⟨"inner", some p1⟩,
             plannedCall env folderPath ⟨"outer", some p2⟩,
             plannedCall env folderPath ⟨"overlay", some p3⟩]⟩,
         [plannedCall env folderPath ⟨"inner", some p1⟩,
          plannedCall env folderPath ⟨"outer", some p2⟩,
          plannedCall env folderPath ⟨"overlay", some p3⟩]) ∧
    (uploadOgCardAssets true rls nowMs env folderPath
        [⟨"inner", some p1⟩, ⟨"outer", some p2⟩, ⟨"overlay", some p3⟩]).2.map WriteCall.path
      = ["og/" ++ folderPath.folder ++ "/inner.png",
         "og/" ++ folderPath.folder ++ "/outer.png",
         "og/" ++ folderPath.folder ++ "/overlay.png"] := by
  have hrate := hasEnoughRemaining_mono rls nowMs "core" 5 6 (by norm_num) hbudget
  have hw' : ∀ f ∈ ([⟨"inner", some p1⟩, ⟨"outer", some p2⟩,
      ⟨"overlay", some p3⟩] : List ImageFile),
      f.preview.isSome → env.writeError (ogPath folderPath f) = none :=
    fun f hf _ => hw f hf
  have h := uploadOgCardAssets_ok_spec rls nowMs env folderPath
    [⟨"inner", some p1⟩, ⟨"outer", some p2⟩, ⟨"overlay", some p3⟩] hbudget hrate hw'
  refine ⟨?_, ?_⟩
  · rw [h]
    simp [baseUrlOf]
  · rw [h]
    simp [plannedCall, ogPath, String.append_assoc]

/-- Witness for C1 at a concrete folder path and assets. -/
theorem uploadOgCardAssets_three_assets_witness :
    (uploadOgCardAssets true [] 0 ⟨fun _ => none, fun _ => none⟩
        ⟨"alice", "repo", "card"⟩
        [⟨"inner", some "d,AA"⟩, ⟨"outer", some "d,BB"⟩, ⟨"overlay", some "d,CC"⟩]).2.map
        WriteCall.path
      = ["og/" ++ "card" ++ "/inner.png", "og/" ++ "card" ++ "/outer.png",
         "og/" ++ "card" ++ "/overlay.png"] :=
  (uploadOgCardAssets_three_assets [] 0 ⟨fun _ => none, fun _ => none⟩
      ⟨"alice", "repo", "card"⟩ "d,AA" "d,BB" "d,CC" rfl (fun f _ => rfl)).2

/-- C3: if an individual file write throws, the batch aborts there (files
after the failing one are never written), the error propagates verbatim, and
a run that saw a write failure is never reported back as a success result. -/
theorem uploadOgCardAssets_aborts_on_write_failure (rls : RateLimits) (nowMs : Nat)
    (env : UploadEnv) (folderPath : FolderPath) (pre post : List ImageFile)
    (f : ImageFile) (p msg : String)
    (hbudget : hasEnoughRemaining rls nowMs "core"
        (((pre ++ f :: post).filter fun g => g.preview.isSome).length * 2) = true)
    (hrate : hasEnoughRemaining rls nowMs "core" 5 = true)
    (hpre : ∀ g ∈ pre, g.preview.isSome → env.writeError (ogPath folderPath g) = none)
    (hp : f.preview = some p)
    (hfail : env.writeError (ogPath folderPath f) = some msg) :
    uploadOgCardAssets true rls nowMs env folderPath (pre ++ f :: post)
      = (.error msg,
         ((pre.filter fun g => g.preview.isSome).map (plannedCall env folderPath))
           ++ [plannedCall env folderPath f]) ∧
    (∀ (files : List ImageFile) (r : UploadResult) (trace : List WriteCall),
        uploadOgCardAssets true rls nowMs env folderPath files = (.ok r, trace) →
        ∀ g ∈ files, g.preview.isSome → env.writeError (ogPath folderPath g) = none) := by
  constructor
  · have hloop := uploadLoop_abort_spec rls nowMs env folderPath pre post f p msg
      hrate hpre hp hfail
    exact uploadOgCardAssets_error_spec rls nowMs env folderPath (pre ++ f :: post)
      msg _ hbudget hloop
  · intro files r trace hok g hg hpop
    simp only [uploadOgCardAssets, Bool.not_true, Bool.false_eq_true, if_false] at hok
    cases hcr : checkRateLimit rls nowMs "core"
        ((files.filter fun f => f.preview.isSome).length * 2) with
    | error e => simp [hcr] at hok
    | ok u =>
        cases u
        rw [hcr] at hok
        cases hloop : uploadLoop rls nowMs env folderPath files with
        | mk rr t =>
            cases rr with
            | error e => simp [hloop] at hok
            | ok cs =>
                exact uploadLoop_ok_implies_writes rls nowMs env folderPath files cs t
                  hloop g hg hpop

/-- Witness for C3: the write of `outer.png` fails, so the batch returns the
error after writing only `inner.png` and attempting `outer.png`; the
`overlay` file is never written. -/
theorem uploadOgCardAssets_aborts_on_write_failure_witness :
    uploadOgCardAssets true [] 0
        ⟨fun _ => none, fun path => if path = "og/card/outer.png" then some "Conflict" else none⟩
        ⟨"alice", "repo", "card"⟩
        ([⟨"inner", some "d,AA"⟩] ++ (⟨"outer", some "d,BB"⟩ : ImageFile) :: [⟨"overlay", some "d,CC"⟩])
      = (.error "Conflict",
         (([⟨"inner", some "d,AA"⟩] : List ImageFile).filter
             (fun g => g.preview.isSome)).map
           (plannedCall
             ⟨fun _ => none, fun path => if path = "og/card/outer.png" then some "Conflict" else none⟩
             ⟨"alice", "repo", "card"⟩)
           ++ [plannedCall
             ⟨fun _ => none, fun path => if path = "og/card/outer.png" then some "Conflict" else none⟩
             ⟨"alice", "repo", "card"⟩ ⟨"outer", some "d,BB"⟩]) :=
  (uploadOgCardAssets_aborts_on_write_failure [] 0
      ⟨fun _ => none, fun path => if path = "og/card/outer.png" then some "Conflict" else none⟩
      ⟨"alice", "repo", "card"⟩ [⟨"inner", some "d,AA"⟩] [⟨"overlay", some "d,CC"⟩]
      ⟨"outer", some "d,BB"⟩ "d,BB" "Conflict" rfl rfl
      (by
        intro g hg _
        rcases List.mem_singleton.mp hg with rfl
        decide)
      rfl (by decide)).1

/-- C4: `uploadFile` is an idempotent create-or-update: when the file is
absent the write is issued without a `sha` and absence is not an error; when
the file exists its sha is read first and included in the write; re-running
the same three-asset upload after a first run (so the files now exist)
succeeds again on the same three paths. -/
theorem uploadFile_idempotent_rerun (rls : RateLimits) (nowMs : Nat)
    (hbudget : hasEnoughRemaining rls nowMs "core" 6 = true) :
    (∀ (env : UploadEnv) (owner repo path content : String) (message : Option String),
        env.getContent path = none → env.writeError path = none →
        uploadFile true rls nowMs env owner repo path content message
          = (.ok ⟨owner, repo, path, content, message.getD ("Upload " ++ path), none⟩,
             [⟨owner, repo, path, content, message.getD ("Upload " ++ path), none⟩])) ∧
    (∀ (env : UploadEnv) (owner repo path content : String) (message : Option String)
        (s : String),
        env.getContent path = some s → s ≠ "" → env.writeError path = none →
        uploadFile true rls nowMs env owner repo path content message
          = (.ok ⟨owner, repo, path, content, message.getD ("Upload " ++ path), some s⟩,
             [⟨owner, repo, path, content, message.getD ("Upload " ++ path), some s⟩])) ∧
    (∀ (env1 env2 : UploadEnv) (folderPath : FolderPath) (p1 p2 p3 : String),
        (∀ path, env1.writeError path = none) →
        (∀ path, env2.writeError path = none) →
        ∃ r1 t1 r2 t2,
          uploadOgCardAssets true rls nowMs env1 folderPath
              [⟨"inner", some p1⟩, ⟨"outer", some p2⟩, ⟨"overlay", some p3⟩]
            = (.ok r1, t1) ∧
          uploadOgCardAssets true rls nowMs env2 folderPath
              [⟨"inner", some p1⟩, ⟨"outer", some p2⟩, ⟨"overlay", some p3⟩]
            = (.ok r2, t2) ∧
          t1.map WriteCall.path = t2.map WriteCall.path ∧
          t1.map WriteCall.path
            = [ogPath folderPath ⟨"inner", some p1⟩, ogPath folderPath ⟨"outer", some p2⟩,
               ogPath folderPath ⟨"overlay", some p3⟩]) := by
  have hrate := hasEnoughRemaining_mono rls nowMs "core" 5 6 (by norm_num) hbudget
  refine ⟨?_, ?_, ?_⟩
  · intro env owner repo path content message hno hok
    have h := uploadFile_ok_spec rls nowMs env owner repo path content message hrate hok
    rw [h, hno]
    simp [shaArg]
  · intro env owner repo path content message s hs hne hok
    have h := uploadFile_ok_spec rls nowMs env owner repo path content message hrate hok
    rw [h, hs]
    simp [shaArg, hne]
  · intro env1 env2 folderPath p1 p2 p3 hw1 hw2
    have h1 := uploadOgCardAssets_ok_spec rls nowMs env1 folderPath
      [⟨"inner", some p1⟩, ⟨"outer", some p2⟩, ⟨"overlay", some p3⟩] hbudget hrate
      (fun f _ _ => hw1 (ogPath folderPath f))
    have h2 := uploadOgCardAssets_ok_spec rls nowMs env2 folderPath
      [⟨"inner", some p1⟩, ⟨"outer", some p2⟩, ⟨"overlay", some p3⟩] hbudget hrate
      (fun f _ _ => hw2 (ogPath folderPath f))
    refine ⟨_, _, _, _, h1, h2, ?_, ?_⟩
    · simp [plannedCall]
    · simp [plannedCall]

/-- Witness for C4: a create (no sha) of a fresh file at a concrete path. -/
theorem uploadFile_idempotent_rerun_witness :
    uploadFile true [] 0 ⟨fun _ => none, fun _ => none⟩ "alice" "repo"
        "og/card/inner.png" "AAA" none
      = (.ok ⟨"alice", "repo", "og/card/inner.png", "AAA",
            (none : Option String).getD ("Upload " ++ "og/card/inner.png"), none⟩,
         [⟨"alice", "repo", "og/card/inner.png", "AAA",
            (none : Option String).getD ("Upload " ++ "og/card/inner.png"), none⟩]) :=
  (uploadFile_idempotent_rerun [] 0 rfl).1 ⟨fun _ => none, fun _ => none⟩
    "alice" "repo" "og/card/inner.png" "AAA" none rfl rfl

/-- C8: with some assets unpopulated, `uploadOgCardAssets` neither rejects
nor uploads placeholders: it writes exactly the populated subset, skipping
each asset without preview content, and still succeeds with the computed
baseUrl. -/
theorem uploadOgCardAssets_skips_missing_assets (rls : RateLimits) (nowMs : Nat)
    (env : UploadEnv) (folderPath : FolderPath) (files : List ImageFile)
    (hbudget : hasEnoughRemaining rls nowMs "core"
        ((files.filter fun f => f.preview.isSome).length * 2) = true)
    (hrate : hasEnoughRemaining rls nowMs "core" 5 = true)
    (hw : ∀ f ∈ files, f.preview.isSome → env.writeError (ogPath folderPath f) = none) :
    uploadOgCardAssets true rls nowMs env folderPath files
      = (.ok ⟨true, baseUrlOf folderPath,
            (files.filter fun f => f.preview.isSome).map (plannedCall env folderPath)⟩,
         (files.filter fun f => f.preview.isSome).map (plannedCall env folderPath)) ∧
    (uploadOgCardAssets true rls nowMs env folderPath files).2.map WriteCall.path
      = (files.filter fun f => f.preview.isSome).map (ogPath folderPath) := by
  have h := uploadOgCardAssets_ok_spec rls nowMs env folderPath files hbudget hrate hw
  refine ⟨h, ?_⟩
  rw [h]
  simp [plannedCall]

/-- Witness for C8: only the `inner` slot is populated; exactly one write at
`og/card/inner.png` happens and the call still succeeds. -/
theorem uploadOgCardAssets_skips_missing_assets_witness :
    (uploadOgCardAssets true [] 0 ⟨fun _ => none, fun _ => none⟩
        ⟨"alice", "repo", "card"⟩
        [⟨"inner", some "d,AA"⟩, ⟨"outer", none⟩, ⟨"overlay", none⟩]).2.map WriteCall.path
      = (([⟨"inner", some "d,AA"⟩, ⟨"outer", none⟩,
          ⟨"overlay", none⟩] : List ImageFile).filter fun f => f.preview.isSome).map
          (ogPath ⟨"alice", "repo", "card"⟩) :=
  (uploadOgCardAssets_skips_missing_assets [] 0 ⟨fun _ => none, fun _ => none⟩
      ⟨"alice", "repo", "card"⟩
      [⟨"inner", some "d,AA"⟩, ⟨"outer", none⟩, ⟨"overlay", none⟩]
      rfl rfl (fun f _ _ => rfl)).2

end PreviewCard
